import Mathlib

/-!
# Verification of the httpChirpy authentication subsystem

A shallow embedding of the Go sources (`main.go`, `internal/auth/auth.go`)
and of the sqlc query files (`refresh_tokens.sql`, `chirps.sql`) into Lean,
together with proofs settling the specification's claims about them.

Conventions of the embedding:
* Go strings are modelled as `List Char` (`GoStr`); the helpers from the
  `strings` package that the code uses (`HasPrefix`, `TrimPrefix`,
  `TrimLeft`/`TrimRight` with the cutset `" "`, `Split` on `" "`,
  `ToLower`) are re-implemented with Go's semantics.
* Wall-clock instants and durations are `Int`.  The codec is generic in the
  unit; in `handlerLogin` the duration handed to the claims is in
  nanoseconds, produced by the wrapping int64 multiplication
  `time.Duration(params.ExpiresInSeconds * int(time.Second))` of main.go
  line 236, which the embedding models explicitly (`wrapInt64`,
  `loginTTLDuration`).
* `uuid.UUID` values are modelled as `Nat`; `uuid.Nil` is `0`.
* The third-party jwt/v5 library is modelled ideally: a signed token is its
  claim set together with an HMAC value, where the HMAC of a message under a
  key is modelled as the (message, key) pair — a deterministic, collision-free
  MAC.  The subject claim produced by `uuid.String()` is modelled
  semantically: a subject string either is the canonical encoding of a UUID
  or it is some other string (`SubjectStr`).
* SQL tables are lists of rows; a sqlc `:one` query returns `Option`
  (`none` models `sql.ErrNoRows`), a `:exec` query returns the new table.
* External effectful collaborators that a handler consumes (jwt wire-format
  decoding, jwt signing, bcrypt hashing and comparison, database-generated
  ids) are explicit function/value parameters of the handler embeddings, so
  that both their success and their failure behaviours can be examined.
-/

namespace Chirpy

/-- Go strings, modelled as lists of characters. -/
abbrev GoStr := List Char

/-- Go `strings.HasPrefix s pre`. -/
def strHasPre (s pre : GoStr) : Bool := pre.isPrefixOf s

/-- Go `strings.TrimPrefix s pre`: drops `pre` when it is a prefix of `s`,
otherwise returns `s` unchanged. -/
def strTrimPre (s pre : GoStr) : GoStr :=
  if strHasPre s pre then s.drop pre.length else s

/-- Go `strings.TrimLeft s " "`: removes leading space characters. -/
def strTrimLeftSpace (s : GoStr) : GoStr := s.dropWhile (· = ' ')

/-- Go `strings.TrimRight s " "`: removes trailing space characters. -/
def strTrimRightSpace (s : GoStr) : GoStr :=
  (s.reverse.dropWhile (· = ' ')).reverse

/-- `http.Header.Get("Authorization")`: a missing header reads as `""`. -/
def headerGet : Option GoStr → GoStr
  | none => []
  | some s => s

/-- The single error value `fmt.Errorf("invalid authorization header")`
produced by both credential extractors in `internal/auth/auth.go`. -/
inductive AuthError where
  | invalidAuthHeader
deriving DecidableEq

/-- `auth.GetBearerToken` (auth.go lines 61–70): rejects a missing/empty
header or one not starting with `"Bearer "`; otherwise strips that scheme
tag and trims surrounding space characters from the remainder. -/
def GetBearerToken (headers : Option GoStr) : Except AuthError GoStr :=
  let header := headerGet headers
  if header.isEmpty || !strHasPre header "Bearer ".toList then
    .error .invalidAuthHeader
  else
    .ok (strTrimRightSpace (strTrimLeftSpace (strTrimPre header "Bearer ".toList)))

/-- `auth.GetAPIKey` (auth.go lines 82–91): same shape as `GetBearerToken`
but for the `"ApiKey "` scheme tag. -/
def GetAPIKey (headers : Option GoStr) : Except AuthError GoStr :=
  let header := headerGet headers
  if header.isEmpty || !strHasPre header "ApiKey ".toList then
    .error .invalidAuthHeader
  else
    .ok (strTrimRightSpace (strTrimLeftSpace (strTrimPre header "ApiKey ".toList)))

/-! ## The access-token codec (`MakeJWT` / `ValidateJWT`, auth.go lines 32–59) -/

/-- The subject claim of a token.  `uuid.String()` always produces the
canonical, parseable encoding of a UUID, so the strings that can stand in
the subject position are partitioned semantically: either the canonical
encoding of some UUID (modelled as a `Nat`), or any other string. -/
inductive SubjectStr where
  | canonical (u : Nat)
  | other (s : GoStr)
deriving DecidableEq

/-- `uuid.Parse` on a subject string: succeeds exactly on canonical UUID
encodings, returning the encoded UUID. -/
def uuidParseSubject : SubjectStr → Option Nat
  | .canonical u => some u
  | .other _ => none

/-- The registered claim set `MakeJWT` builds: issuer `"chirpy"`, subject
`userID.String()`, issued-at, expires-at (all times in seconds). -/
structure Claims where
  issuer : GoStr
  subject : SubjectStr
  issuedAt : Int
  expiresAt : Int
deriving DecidableEq

/-- Ideal model of HMAC-SHA256 over the token's signing input: the MAC of a
claim set under a key is the pair of the two, so it is deterministic and two
MACs agree exactly when both the message and the key agree. -/
def hmacSign (c : Claims) (secret : GoStr) : Claims × GoStr := (c, secret)

/-- A serialized signed JWT: its claim set together with its signature part. -/
structure SignedToken where
  claims : Claims
  sig : Claims × GoStr
deriving DecidableEq

/-- The claim set built at issuance time (auth.go line 33):
`{Issuer: "chirpy", IssuedAt: now, ExpiresAt: now + expiresIn, Subject: userID.String()}`. -/
def mkClaims (userID : Nat) (now expiresIn : Int) : Claims :=
  { issuer := "chirpy".toList
    subject := .canonical userID
    issuedAt := now
    expiresAt := now + expiresIn }

/-- `auth.MakeJWT` (auth.go lines 32–39): builds the claim set and signs it
with the HMAC key derived from `tokenSecret`.  (The error branch of
`SignedString` is a failure of the external crypto collaborator; it is
modelled at the call sites that must consider it, see `handlerLogin`.) -/
def MakeJWT (userID : Nat) (tokenSecret : GoStr) (expiresIn now : Int) : SignedToken :=
  { claims := mkClaims userID now expiresIn
    sig := hmacSign (mkClaims userID now expiresIn) tokenSecret }

/-- The distinguishable error classes of `ValidateJWT`: a parse/signature
failure or invalid claims from `jwt.ParseWithClaims`, and a subject that
`uuid.Parse` rejects. -/
inductive JWTError where
  | tokenExpired
  | signatureInvalid
  | subjectNotUUID
deriving DecidableEq

/-- `auth.ValidateJWT` (auth.go lines 41–59): `jwt.ParseWithClaims`
re-verifies the signature with the key returned by the keyfunc (the bytes of
`tokenSecret`) and validates the registered claims — the `exp` claim fails
exactly when `now >= expiresAt` (jwt/v5 `Validator.Validate`, which checks
claims before the signature).  On success the subject is fetched and parsed
as a UUID; `uuid.Nil` (here `0`) accompanies every error in the Go code and
is absorbed into `Except.error`. -/
def ValidateJWT (tok : SignedToken) (tokenSecret : GoStr) (now : Int) :
    Except JWTError Nat :=
  if tok.claims.expiresAt ≤ now then .error .tokenExpired
  else if tok.sig ≠ hmacSign tok.claims tokenSecret then .error .signatureInvalid
  else
    match uuidParseSubject tok.claims.subject with
    | none => .error .subjectNotUUID
    | some userId => .ok userId

/-! ## The persistence layer (sqlc queries over list-of-rows tables) -/

/-- A row of the `refresh_tokens` table. -/
structure RefreshTokenRow where
  token : GoStr
  userId : Nat
  createdAt : Int
  updatedAt : Int
  expiresAt : Int
  revokedAt : Option Int
deriving DecidableEq

/-- A row of the `users` table. -/
structure UserRow where
  id : Nat
  createdAt : Int
  updatedAt : Int
  email : GoStr
  hashedPassword : GoStr
deriving DecidableEq

/-- `ORDER BY expires_at DESC LIMIT 1` over a result set, with `expiresAt`
read through `f`: keeps the first row among those with the largest expiry. -/
def pickMaxExpiry {α : Type} (f : α → Int) : List α → Option α
  | [] => none
  | r :: rs =>
    match pickMaxExpiry f rs with
    | none => some r
    | some best => if f best > f r then some best else some r

/-- `GetRefreshToken` (refresh_tokens.sql lines 6–10):
`SELECT * FROM refresh_tokens WHERE token = $1 AND expires_at > NOW() AND
revoked_at IS NULL ORDER BY expires_at DESC LIMIT 1`.  A `:one` query with an
empty result set returns `sql.ErrNoRows`, modelled as `none`. -/
def GetRefreshToken (tbl : List RefreshTokenRow) (token : GoStr) (now : Int) :
    Option RefreshTokenRow :=
  pickMaxExpiry (·.expiresAt)
    (tbl.filter fun r => r.token == token && decide (r.expiresAt > now) && r.revokedAt == none)

/-- `GetUserFromRefreshToken` (refresh_tokens.sql lines 12–17):
`SELECT users.* FROM users JOIN refresh_tokens ON users.id =
refresh_tokens.user_id WHERE refresh_tokens.token = $1 AND
refresh_tokens.expires_at > NOW() ORDER BY refresh_tokens.expires_at DESC
LIMIT 1`.  Note the `WHERE` clause of this query has no
`revoked_at IS NULL` conjunct. -/
def GetUserFromRefreshToken (users : List UserRow) (tbl : List RefreshTokenRow)
    (token : GoStr) (now : Int) : Option UserRow :=
  let joined :=
    (tbl.filter fun r => r.token == token && decide (r.expiresAt > now)).flatMap
      fun r => (users.filter fun u => u.id == r.userId).map fun u => (u, r)
  (pickMaxExpiry (fun p => p.2.expiresAt) joined).map Prod.fst

/-- `RevokeRefreshToken` (refresh_tokens.sql lines 19–25): two sequential
`UPDATE` statements, the first setting `revoked_at = NOW()` and the second
setting `updated_at = NOW()`, each over every row with the given token and
neither guarded by a `revoked_at IS NULL` predicate.  As a `:exec` statement
it reports no error when zero rows match. -/
def RevokeRefreshToken (tbl : List RefreshTokenRow) (token : GoStr) (now : Int) :
    List RefreshTokenRow :=
  let afterFirst := tbl.map fun r =>
    if r.token == token then { r with revokedAt := some now } else r
  afterFirst.map fun r =>
    if r.token == token then { r with updatedAt := now } else r

/-- `RevokeRefreshTokensForUser` (refresh_tokens.sql lines 27–30):
`UPDATE refresh_tokens SET revoked_at = NOW() WHERE user_id = $1`. -/
def RevokeRefreshTokensForUser (tbl : List RefreshTokenRow) (userId : Nat) (now : Int) :
    List RefreshTokenRow :=
  tbl.map fun r => if r.userId == userId then { r with revokedAt := some now } else r

/-- `GetUserByEmail`: `:one` lookup of a user row by its (unique) email. -/
def GetUserByEmail (users : List UserRow) (email : GoStr) : Option UserRow :=
  users.find? fun u => u.email == email

/-! ## The HTTP handlers of `main.go` relevant to the claims

Each handler is a function of its request data and of its external
collaborators; it returns its response outcome together with the state it
may have changed (the tables it writes and the `apiConfig`). -/

/-- The outcome of one handler invocation, as observable by the client:
a successful JSON response, an error response produced by `marshallError`
with a non-nil error, or a panic (`statusWritten` records a status line
already sent before the panic). -/
inductive HandlerOutcome (α : Type) where
  | response (status : Nat) (body : α)
  | errorResp (status : Nat)
  | panicked (statusWritten : Option Nat)
deriving DecidableEq

/-- `marshallError` (main.go lines 177–190): writes the status code first,
then marshals `errorResponse{Error: err.Error()}`.  When it is called with a
nil error (`none`), `err.Error()` dereferences a nil interface and the
handler goroutine panics — after the status line has already been written. -/
def marshallError {α : Type} (err : Option Unit) (code : Nat) : HandlerOutcome α :=
  match err with
  | some _ => .errorResp code
  | none => .panicked (some code)

/-- The fields of `apiConfig` the handlers under study read or write:
the deployment platform, the JWT signing secret, and the process-wide
mutable `userId` field that `handlerLogin`/`handlerRegister` store into and
`handlerCreateChirp` reads. -/
structure ApiConfig where
  platform : GoStr
  secretKey : GoStr
  userId : Nat
deriving DecidableEq

/-- Go `strings.Split(s, " ")`: splits at every single space character;
consecutive spaces yield empty fields. -/
def splitOnSpace : GoStr → List GoStr
  | [] => [[]]
  | c :: rest =>
    if c = ' ' then [] :: splitOnSpace rest
    else
      match splitOnSpace rest with
      | [] => [[c]]
      | w :: ws => (c :: w) :: ws

/-- Word replacement step of `cleanString` (main.go lines 196–199):
a word whose `strings.ToLower` image is one of the three banned words is
replaced by `"****"`. -/
def censorWord (w : GoStr) : GoStr :=
  let lw := w.map Char.toLower
  if lw == "kerfuffle".toList || lw == "sharbert".toList || lw == "fornax".toList then
    "****".toList
  else w

/-- `cleanString` (main.go lines 193–204): splits on spaces, censors each
word, re-joins appending a space after every word, and trims the trailing
spaces. -/
def cleanString (s : GoStr) : GoStr :=
  strTrimRightSpace (((splitOnSpace s).map censorWord).flatMap fun w => w ++ [' '])

/-- The request body of `handlerCreateChirp`, decoded into
`database.CreateChirpParams` (fields `Body`, `UserID`). -/
structure CreateChirpParams where
  body : GoStr
  userId : Nat
deriving DecidableEq

/-- `validate` (main.go lines 164–174): rejects a body over 140 characters,
otherwise returns the censored body.  (Go measures `len` in bytes; the
embedding measures characters, which agrees on ASCII bodies.) -/
def validate (params : CreateChirpParams) : Except Unit GoStr :=
  if params.body.length > 140 then .error () else .ok (cleanString params.body)

/-- A row of the `chirps` table as inserted by `CreateChirp`
(chirps.sql lines 1–4): generated id, `now()` timestamps, body, user id. -/
structure ChirpRow where
  id : Nat
  createdAt : Int
  updatedAt : Int
  body : GoStr
  userId : Nat
deriving DecidableEq

/-- The response struct marshalled by `handlerCreateChirp` (main.go lines
140–149). -/
structure ChirpResponse where
  id : Nat
  body : GoStr
  userId : Nat
deriving DecidableEq

/-- `handlerCreateChirp` (main.go lines 109–161).  External collaborators as
parameters: `decodeJWT` is the jwt/v5 wire-format decoder applied to the
bearer string (`none` when the string is not a well-formed JWT), and
`newChirpId` is the database-generated chirp id.  Faithful detail: the `err`
returned by `auth.ValidateJWT` on line 125 is overwritten by the
`respBody, err := validate(params)` assignment on line 127 before it is ever
checked, so a failed validation merely leaves `userId = uuid.Nil` (here `0`)
in the response; the chirp itself is inserted with `cfg.userId`. -/
def handlerCreateChirp (cfg : ApiConfig) (chirps : List ChirpRow) (now : Int)
    (decodeJWT : GoStr → Option SignedToken) (newChirpId : Nat)
    (body : Option CreateChirpParams) (authHeader : Option GoStr) :
    HandlerOutcome ChirpResponse × List ChirpRow :=
  match body with
  | none => (marshallError (some ()) 500, chirps)
  | some params =>
    match GetBearerToken authHeader with
    | .error _ => (marshallError (some ()) 401, chirps)
    | .ok bearer =>
      let userId : Nat :=
        match decodeJWT bearer with
        | none => 0
        | some tok => ((ValidateJWT tok cfg.secretKey now).toOption).getD 0
      match validate params with
      | .error _ => (marshallError (some ()) 400, chirps)
      | .ok respBody =>
        let row : ChirpRow :=
          { id := newChirpId, createdAt := now, updatedAt := now,
            body := respBody, userId := cfg.userId }
        (.response 201 { id := newChirpId, body := respBody, userId := userId },
         chirps ++ [row])

/-- The decoded request body of `handlerLogin` (main.go lines 207–211);
a JSON body without `expires_in_seconds` decodes that field to `0`. -/
structure LoginParams where
  email : GoStr
  password : GoStr
  expiresInSeconds : Int
deriving DecidableEq

/-- The TTL adjustment of `handlerLogin` (main.go lines 233–235):
`if params.ExpiresInSeconds == 0 || params.ExpiresInSeconds > 3600 {
params.ExpiresInSeconds = 3600 }`. -/
def clampTTL (n : Int) : Int :=
  if n = 0 ∨ n > 3600 then 3600 else n

/-- Two-complement wrap-around of an unbounded integer into the int64 range
`[-2^63, 2^63)`, as performed by overflowing Go `int` arithmetic. -/
def wrapInt64 (n : Int) : Int :=
  (n + 9223372036854775808) % 18446744073709551616 - 9223372036854775808

/-- The duration main.go line 236 builds from the (already clamp-adjusted)
`params.ExpiresInSeconds`:
`time.Duration(params.ExpiresInSeconds * int(time.Second))`, a wrapping
64-bit multiplication by `10^9` yielding nanoseconds.  For
`n ≤ -9223372037` the product underflows int64 and wraps, which can turn a
negative requested TTL into a huge positive validity window. -/
def loginTTLDuration (n : Int) : Int :=
  wrapInt64 (n * 1000000000)

/-- The `User` struct marshalled by `handlerLogin` and `handlerRegister`
(main.go lines 30–36); `handlerRegister` leaves `Token` at its zero value. -/
structure UserJSON where
  id : Nat
  createdAt : Int
  updatedAt : Int
  email : GoStr
  token : GoStr
deriving DecidableEq

/-- `handlerLogin` (main.go lines 206–255).  External collaborators as
parameters: `bcryptOk pw hash` is `bcrypt.CompareHashAndPassword(hash, pw)
== nil`, and `signJWT` is the jwt `SignedString` step of `auth.MakeJWT`
applied to the claim set (`none` models a signing failure).  Faithful
details: the TTL reaches the claims through the wrapping int64
multiplication `time.Duration(params.ExpiresInSeconds * int(time.Second))`
of line 236 (`loginTTLDuration`, nanoseconds — so on this path the model
instants are nanoseconds); the `err` returned by `auth.MakeJWT` on line 236
is overwritten by the `dat, err := json.Marshal(response)` assignment before
it is ever checked, so on a signing failure the handler proceeds with
`token = ""`;
`cfg.userId` is overwritten with the logged-in user's id; and no refresh
token is generated, persisted, or returned — the refresh-token table is
passed through untouched. -/
def handlerLogin (cfg : ApiConfig) (users : List UserRow) (rts : List RefreshTokenRow)
    (now : Int) (bcryptOk : GoStr → GoStr → Bool) (signJWT : Claims → Option GoStr)
    (body : Option LoginParams) :
    HandlerOutcome UserJSON × ApiConfig × List RefreshTokenRow :=
  match body with
  | none => (marshallError (some ()) 500, cfg, rts)
  | some params =>
    match GetUserByEmail users params.email with
    | none => (marshallError (some ()) 404, cfg, rts)
    | some user =>
      if !bcryptOk params.password user.hashedPassword then
        (marshallError (some ()) 401, cfg, rts)
      else
        let ttl := clampTTL params.expiresInSeconds
        let token := (signJWT (mkClaims user.id now (loginTTLDuration ttl))).getD []
        (.response 200
          { id := user.id, createdAt := user.createdAt, updatedAt := user.updatedAt,
            email := user.email, token := token },
         { cfg with userId := user.id }, rts)

/-- The decoded request body of `handlerRegister` (main.go lines 258–261). -/
structure RegisterParams where
  email : GoStr
  password : GoStr
deriving DecidableEq

/-- `handlerRegister` (main.go lines 257–302).  External collaborators as
parameters: `hashPw` is `bcrypt.GenerateFromPassword` (`none` models an
entropy failure) and `newUserId` is the database-generated user id.
Faithful detail: the platform gate on lines 270–273 calls
`marshallError(w, err, 403)` with `err` still nil (the decode on line 264
succeeded) and has no `return`; `marshallError` writes the 403 status line
and then panics dereferencing the nil error, so the handler never reaches
the hashing and user-creation code on that path. -/
def handlerRegister (cfg : ApiConfig) (users : List UserRow) (now : Int)
    (hashPw : GoStr → Option GoStr) (newUserId : Nat)
    (body : Option RegisterParams) :
    HandlerOutcome UserJSON × List UserRow × ApiConfig :=
  match body with
  | none => (marshallError (some ()) 500, users, cfg)
  | some params =>
    if cfg.platform ≠ "dev".toList then
      (marshallError none 403, users, cfg)
    else
      match hashPw params.password with
      | none => (marshallError (some ()) 500, users, cfg)
      | some h =>
        let user : UserRow :=
          { id := newUserId, createdAt := now, updatedAt := now,
            email := params.email, hashedPassword := h }
        (.response 201
          { id := newUserId, createdAt := now, updatedAt := now,
            email := params.email, token := [] },
         users ++ [user], { cfg with userId := newUserId })

/-! ## Helper lemmas -/

/-- Success characterization of `ValidateJWT`: it returns a user id exactly
when the token is unexpired, its signature verifies under the secret, and
its subject parses as that UUID. -/
theorem validateJWT_eq_ok_iff (tok : SignedToken) (secret : GoStr) (now : Int)
    (u : Nat) :
    ValidateJWT tok secret now = .ok u ↔
      now < tok.claims.expiresAt ∧ tok.sig = hmacSign tok.claims secret ∧
      uuidParseSubject tok.claims.subject = some u := by
  unfold ValidateJWT
  by_cases h1 : tok.claims.expiresAt ≤ now
  · have h1' : ¬ now < tok.claims.expiresAt := by omega
    simp [h1, h1']
  · have h1' : now < tok.claims.expiresAt := by omega
    by_cases h2 : tok.sig = hmacSign tok.claims secret
    · cases h3 : uuidParseSubject tok.claims.subject with
      | none => simp [h1, h2, h3]
      | some v => simp [h1, h2, h3, h1']
    · simp [h1, h2]

/-- Every `Except` value is an `ok` or an `error`. -/
theorem except_ok_or_error {ε α : Type} (v : Except ε α) :
    (∃ a, v = .ok a) ∨ (∃ e, v = .error e) := by
  cases v with
  | ok a => exact .inl ⟨a, rfl⟩
  | error e => exact .inr ⟨e, rfl⟩

/-! ## The claims -/

/-- C5: for every user id `u`, secret, and `ttl > 0`, validating a token just
issued for `u` with that secret and ttl succeeds and returns exactly `u`
(access-token issue/validate round trip). -/
theorem jwt_issue_validate_round_trip (u : Nat) (secret : GoStr) (ttl now : Int)
    (h : 0 < ttl) :
    ValidateJWT (MakeJWT u secret ttl now) secret now = .ok u := by
  rw [validateJWT_eq_ok_iff]
  refine ⟨?_, rfl, rfl⟩
  show now < (mkClaims u now ttl).expiresAt
  simp [mkClaims]
  omega

/-- Witness for C5 at a concrete input: issuing for user 7 with ttl 10 at
time 50 and validating immediately yields user 7. -/
theorem jwt_issue_validate_round_trip_witness :
    (0 : Int) < 10 ∧
      ValidateJWT (MakeJWT 7 "s".toList 10 50) "s".toList 50 = .ok 7 :=
  ⟨by norm_num, jwt_issue_validate_round_trip 7 "s".toList 10 50 (by norm_num)⟩

/-- C6: `ValidateJWT` rejects with an error if and only if the signature of
the token does not verify under the secret, or `now ≥ expires_at`, or the
subject claim is not parseable as a UUID; otherwise it returns the subject
user id; and a token issued under one secret never validates under a
distinct secret. -/
theorem validateJWT_rejects_iff (tok : SignedToken) (secret : GoStr) (now : Int) :
    ((∃ e, ValidateJWT tok secret now = .error e) ↔
      (tok.sig ≠ hmacSign tok.claims secret ∨ tok.claims.expiresAt ≤ now ∨
        uuidParseSubject tok.claims.subject = none))
    ∧ (∀ u, tok.sig = hmacSign tok.claims secret → now < tok.claims.expiresAt →
        uuidParseSubject tok.claims.subject = some u →
        ValidateJWT tok secret now = .ok u)
    ∧ (∀ (u : Nat) (sA sB : GoStr) (ttl iss : Int), sA ≠ sB →
        ∃ e, ValidateJWT (MakeJWT u sA ttl iss) sB now = .error e) := by
  refine ⟨?_, ?_, ?_⟩
  · constructor
    · rintro ⟨e, he⟩
      by_contra hno
      push_neg at hno
      obtain ⟨hsig, hexp, hsub⟩ := hno
      rcases hu : uuidParseSubject tok.claims.subject with _ | u
      · exact hsub hu
      · have : ValidateJWT tok secret now = .ok u :=
          (validateJWT_eq_ok_iff tok secret now u).mpr ⟨by omega, hsig, hu⟩
        rw [this] at he
        cases he
    · intro hcond
      rcases except_ok_or_error (ValidateJWT tok secret now) with ⟨u, hu⟩ | ⟨e, he⟩
      · obtain ⟨hlt, hsig, hsub⟩ := (validateJWT_eq_ok_iff tok secret now u).mp hu
        rcases hcond with h | h | h
        · exact absurd hsig h
        · omega
        · rw [hsub] at h; cases h
      · exact ⟨e, he⟩
  · intro u hsig hlt hsub
    exact (validateJWT_eq_ok_iff tok secret now u).mpr ⟨hlt, hsig, hsub⟩
  · intro u sA sB ttl iss hne
    rcases except_ok_or_error (ValidateJWT (MakeJWT u sA ttl iss) sB now) with
      ⟨v, hv⟩ | ⟨e, he⟩
    · obtain ⟨_, hsig, _⟩ :=
        (validateJWT_eq_ok_iff (MakeJWT u sA ttl iss) sB now v).mp hv
      have : sA = sB := congrArg Prod.snd hsig
      exact absurd this hne
    · exact ⟨e, he⟩

/-- Witness for C6 at concrete inputs: a well-signed unexpired token
validates to its subject, and a token issued under secret `"a"` fails to
validate under secret `"b"`. -/
theorem validateJWT_rejects_iff_witness :
    ValidateJWT (MakeJWT 5 "k".toList 10 100) "k".toList 100 = .ok 5
    ∧ (∃ e, ValidateJWT (MakeJWT 5 "a".toList 10 100) "b".toList 100 = .error e) := by
  have h1 := (validateJWT_rejects_iff (MakeJWT 5 "k".toList 10 100) "k".toList 100).2.1
      5 rfl (by norm_num [MakeJWT, mkClaims]) rfl
  have h2 := (validateJWT_rejects_iff (MakeJWT 5 "k".toList 10 100) "k".toList 100).2.2
      5 "a".toList "b".toList 10 100 (by decide)
  exact ⟨h1, h2⟩

/-- C1: evaluation at the failing input.  A `refresh_tokens` row for token
`"t"` that is revoked (`revoked_at = 5`) but not yet expired
(`expires_at = 100 > now = 10`): the row lookup `GetRefreshToken` correctly
reports no row, but the user-join lookup `GetUserFromRefreshToken` — whose
`WHERE` clause omits `revoked_at IS NULL` — still returns the owning user,
violating the invariant that a lookup only ever honours rows with
`revoked_at IS NULL AND expires_at > now`. -/
theorem refresh_lookup_revocation_asymmetry :
    GetRefreshToken [⟨"t".toList, 1, 0, 0, 100, some 5⟩] "t".toList 10 = none
    ∧ GetUserFromRefreshToken [⟨1, 0, 0, "u@x.com".toList, "h".toList⟩]
        [⟨"t".toList, 1, 0, 0, 100, some 5⟩] "t".toList 10
      = some ⟨1, 0, 0, "u@x.com".toList, "h".toList⟩ :=
  ⟨rfl, rfl⟩

/-- C2: evaluation at the failing inputs.  `handlerCreateChirp` runs
`userId, err := auth.ValidateJWT(...)` and the very next statement
`respBody, err := validate(params)` overwrites `err` before it is checked,
so a request whose bearer credential is (a) not a well-formed JWT, or
(b) a JWT signed under a different secret, is **not** rejected: the handler
returns 201 and persists the chirp (under the shared `cfg.userId`, with
`uuid.Nil` echoed in the response body). -/
theorem chirp_created_despite_invalid_jwt :
    handlerCreateChirp ⟨"dev".toList, "sec".toList, 9⟩ [] 0 (fun _ => none) 7
        (some ⟨"hi".toList, 0⟩) (some "Bearer not-a-jwt".toList)
      = (.response 201 ⟨7, "hi".toList, 0⟩, [⟨7, 0, 0, "hi".toList, 9⟩])
    ∧ handlerCreateChirp ⟨"dev".toList, "sec".toList, 9⟩ [] 0
        (fun _ => some (MakeJWT 3 "othersecret".toList 10 0)) 7
        (some ⟨"hi".toList, 0⟩) (some "Bearer forged".toList)
      = (.response 201 ⟨7, "hi".toList, 0⟩, [⟨7, 0, 0, "hi".toList, 9⟩])
    ∧ ValidateJWT (MakeJWT 3 "othersecret".toList 10 0) "sec".toList 0
      = .error .signatureInvalid :=
  ⟨rfl, rfl, rfl⟩

/-- C4: evaluation at the failing input, plus the general fact.  A fully
successful login (email found, password verified, signing succeeded)
returns only the access token and the public profile fields; no refresh
token is generated, persisted, or returned — `handlerLogin` passes the
`refresh_tokens` table through unchanged on every path. -/
theorem login_creates_no_refresh_token :
    (∀ cfg users rts now bOk sign body,
        (handlerLogin cfg users rts now bOk sign body).2.2 = rts)
    ∧ handlerLogin ⟨"dev".toList, "sec".toList, 0⟩
        [⟨1, 0, 0, "a@b.com".toList, "h".toList⟩] [] 100
        (fun _ _ => true) (fun _ => some "jwt".toList)
        (some ⟨"a@b.com".toList, "pw".toList, 0⟩)
      = (.response 200 ⟨1, 0, 0, "a@b.com".toList, "jwt".toList⟩,
         ⟨"dev".toList, "sec".toList, 1⟩, []) := by
  refine ⟨?_, rfl⟩
  intro cfg users rts now bOk sign body
  unfold handlerLogin
  rcases body with _ | params
  · rfl
  · rcases h : GetUserByEmail users params.email with _ | user
    · simp [h, marshallError]
    · by_cases hb : bOk params.password user.hashedPassword <;>
        simp [h, hb, marshallError]

/-- C8: evaluation at the failing input.  `handlerLogin` never checks the
error returned by `auth.MakeJWT` (main.go line 236; the next assignment to
`err` is the `json.Marshal` call), so when access-token signing fails the
handler still answers 200 — with an empty `token` field — instead of a
server-fault response. -/
theorem login_signing_failure_returns_200 :
    handlerLogin ⟨"dev".toList, "sec".toList, 0⟩
        [⟨1, 0, 0, "a@b.com".toList, "h".toList⟩] [] 100
        (fun _ _ => true) (fun _ => none)
        (some ⟨"a@b.com".toList, "pw".toList, 60⟩)
      = (.response 200 ⟨1, 0, 0, "a@b.com".toList, ([] : GoStr)⟩,
         ⟨"dev".toList, "sec".toList, 1⟩, []) :=
  rfl

/-- Success path of `handlerLogin`: when the email resolves and the password
verifies, the handler answers 200 with the profile fields and a token signed
over a claim set whose lifetime is the wrapping nanosecond conversion of
`clampTTL` of the requested TTL, stores the user id into the shared
configuration, and leaves the refresh-token table untouched. -/
theorem handlerLogin_success (cfg : ApiConfig) (users : List UserRow)
    (rts : List RefreshTokenRow) (now : Int) (bOk : GoStr → GoStr → Bool)
    (sign : Claims → Option GoStr) (params : LoginParams) (user : UserRow)
    (hu : GetUserByEmail users params.email = some user)
    (hpw : bOk params.password user.hashedPassword = true) :
    handlerLogin cfg users rts now bOk sign (some params)
      = (.response 200
          ⟨user.id, user.createdAt, user.updatedAt, user.email,
            (sign (mkClaims user.id now
              (loginTTLDuration (clampTTL params.expiresInSeconds)))).getD []⟩,
         { cfg with userId := user.id }, rts) := by
  simp [handlerLogin, hu, hpw]

/-- C3 counterexample: the TTL guard of `handlerLogin`
(`if params.ExpiresInSeconds == 0 || params.ExpiresInSeconds > 3600`)
lets every negative TTL through.  A login requesting a TTL of −5 seconds at
time 100 ns is issued a token over claims expiring at 100 − 5·10⁹ ns — the
`signJWT` observer below distinguishes the issued claim set from the one the
claim mandates (expiry `100 + 3600·10⁹`) — whereas the claim requires the
default of 3600 s for every value outside `(0, 3600]`. -/
theorem login_negative_ttl_not_clamped :
    clampTTL (-5) = -5
    ∧ loginTTLDuration (-5) = -5000000000
    ∧ (handlerLogin ⟨"dev".toList, "sec".toList, 0⟩
          [⟨1, 0, 0, "a@b.com".toList, "h".toList⟩] [] 100
          (fun _ _ => true)
          (fun c => some (if c.expiresAt = 100 + 3600 * 1000000000
                          then "clamped".toList else "negttl".toList))
          (some ⟨"a@b.com".toList, "pw".toList, -5⟩)).1
      = .response 200 ⟨1, 0, 0, "a@b.com".toList, "negttl".toList⟩ :=
  ⟨rfl, by decide, rfl⟩

/-- C3 amended: a requested TTL of 0 or above 3600 defaults to 3600 seconds
and a TTL inside `(0, 3600]` is used unchanged, but a negative TTL is not
clamped: it enters the wrapping int64 nanosecond conversion
`time.Duration(n * int(time.Second))` unchanged, so requests down to
−9223372036 yield an already-expired token (negative duration), while a
request of −10¹⁰ underflows int64 and is issued a token valid for
8446744073709551616 ns — about 268 years.  `handlerLogin` signs claims whose
lifetime is exactly `loginTTLDuration (clampTTL n)` nanoseconds. -/
theorem login_ttl_clamp_amended :
    (∀ n : Int,
      (n = 0 ∨ n > 3600 → clampTTL n = 3600)
      ∧ (0 < n → n ≤ 3600 → clampTTL n = n)
      ∧ (n < 0 → clampTTL n = n))
    ∧ (∀ (cfg : ApiConfig) (users : List UserRow) (rts : List RefreshTokenRow)
        (now : Int) (bOk : GoStr → GoStr → Bool) (sign : Claims → Option GoStr)
        (params : LoginParams) (user : UserRow),
        GetUserByEmail users params.email = some user →
        bOk params.password user.hashedPassword = true →
        handlerLogin cfg users rts now bOk sign (some params)
          = (.response 200
              ⟨user.id, user.createdAt, user.updatedAt, user.email,
                (sign (mkClaims user.id now
                  (loginTTLDuration (clampTTL params.expiresInSeconds)))).getD []⟩,
             { cfg with userId := user.id }, rts))
    ∧ (∀ n : Int, -9223372036 ≤ n → n ≤ 9223372036 →
        loginTTLDuration n = n * 1000000000)
    ∧ loginTTLDuration (-10000000000) = 8446744073709551616 := by
  refine ⟨?_, ?_, ?_, by decide⟩
  · intro n
    refine ⟨fun h => ?_, fun h1 h2 => ?_, fun h => ?_⟩ <;>
      · unfold clampTTL
        split <;> omega
  · intro cfg users rts now bOk sign params user hu hpw
    exact handlerLogin_success cfg users rts now bOk sign params user hu hpw
  · intro n h1 h2
    unfold loginTTLDuration wrapInt64
    rw [Int.emod_eq_of_lt (by omega) (by omega)]
    omega

/-- Witness for C3 amended at concrete inputs: 99999 is clamped to 3600,
1800 passes through, the nanosecond conversion is wrap-free at 5, and a
concrete login requesting a TTL of 99999 is issued the token signed over the
clamped claim set. -/
theorem login_ttl_clamp_amended_witness :
    clampTTL 99999 = 3600 ∧ clampTTL 1800 = 1800
    ∧ loginTTLDuration 5 = 5000000000
    ∧ handlerLogin ⟨"dev".toList, "sec".toList, 0⟩
        [⟨1, 0, 0, "e@x.com".toList, "h".toList⟩] [] 100
        (fun _ _ => true) (fun _ => some "tok".toList)
        (some ⟨"e@x.com".toList, "pw".toList, 99999⟩)
      = (.response 200 ⟨1, 0, 0, "e@x.com".toList, "tok".toList⟩,
         ⟨"dev".toList, "sec".toList, 1⟩, []) := by
  have h := login_ttl_clamp_amended
  refine ⟨(h.1 99999).1 (by norm_num), (h.1 1800).2.1 (by norm_num) (by norm_num),
    h.2.2.1 5 (by norm_num) (by norm_num), ?_⟩
  exact h.2.1 ⟨"dev".toList, "sec".toList, 0⟩ [⟨1, 0, 0, "e@x.com".toList, "h".toList⟩]
    [] 100 (fun _ _ => true) (fun _ => some "tok".toList)
    ⟨"e@x.com".toList, "pw".toList, 99999⟩ ⟨1, 0, 0, "e@x.com".toList, "h".toList⟩
    rfl rfl

/-- C7 counterexample: a second `RevokeRefreshToken` of the same token does
**not** leave `revoked_at` unchanged.  The first `UPDATE` of the revoke
statement has no `revoked_at IS NULL` guard, so re-revoking at time 9 a row
first revoked at time 5 overwrites `revoked_at` with 9. -/
theorem revoke_overwrites_earlier_revocation :
    RevokeRefreshToken [⟨"t".toList, 1, 0, 0, 100, none⟩] "t".toList 5
      = [⟨"t".toList, 1, 0, 5, 100, some 5⟩]
    ∧ RevokeRefreshToken [⟨"t".toList, 1, 0, 5, 100, some 5⟩] "t".toList 9
      = [⟨"t".toList, 1, 0, 9, 100, some 9⟩]
    ∧ (some (9 : Int)) ≠ some 5 :=
  ⟨rfl, rfl, by decide⟩

/-- C7 amended: `RevokeRefreshToken` sets `revoked_at` (and then
`updated_at`) to now for every row carrying the given token,
unconditionally — so a second revoke overwrites `revoked_at` with the later
time — and it touches no other row, so revoking a nonexistent (or
already-revoked) token is not an error. -/
theorem revoke_sets_revokedAt_unconditionally (tbl : List RefreshTokenRow)
    (token : GoStr) (now : Int) :
    RevokeRefreshToken tbl token now
      = tbl.map fun r =>
          if r.token == token
          then { r with revokedAt := some now, updatedAt := now } else r := by
  unfold RevokeRefreshToken
  rw [List.map_map]
  apply List.map_congr_left
  intro a _
  by_cases h : a.token == token
  · simp [Function.comp, h]
  · simp [Function.comp, h]

/-- C10: when the deployment platform is not `"dev"`, `handlerRegister`
writes the 403 forbidden status and creates no user row (nor does it touch
the shared configuration).  The mechanism: `marshallError(w, err, 403)` is
reached with a nil `err` and panics right after writing the status line, so
— despite the missing `return` — the hashing and `CreateUser` code below the
gate never executes. -/
theorem register_rejected_outside_dev (cfg : ApiConfig) (users : List UserRow)
    (now : Int) (hashPw : GoStr → Option GoStr) (newUserId : Nat)
    (params : RegisterParams) (h : cfg.platform ≠ "dev".toList) :
    handlerRegister cfg users now hashPw newUserId (some params)
      = (.panicked (some 403), users, cfg) := by
  simp only [handlerRegister, marshallError]
  rw [if_pos h]

/-- Witness for C10 at a concrete input: on platform `"prod"` a register
request leaves the user table empty and yields the 403-then-panic outcome. -/
theorem register_rejected_outside_dev_witness :
    handlerRegister ⟨"prod".toList, "sec".toList, 0⟩ [] 0
        (fun pw => some pw) 1 (some ⟨"a@b.com".toList, "pw".toList⟩)
      = (.panicked (some 403), [], ⟨"prod".toList, "sec".toList, 0⟩) :=
  register_rejected_outside_dev ⟨"prod".toList, "sec".toList, 0⟩ [] 0
    (fun pw => some pw) 1 ⟨"a@b.com".toList, "pw".toList⟩ (by decide)

/-! ## Space-trimming lemmas for the credential extractors -/

/-- A list is a `strHasPre`-prefix of itself followed by anything. -/
theorem strHasPre_append (p s : GoStr) : strHasPre (p ++ s) p = true := by
  unfold strHasPre
  rw [List.isPrefixOf_iff_prefix]
  exact List.prefix_append p s

/-- Trimming a prefix off that very prefix followed by a remainder leaves
the remainder. -/
theorem strTrimPre_append (p s : GoStr) : strTrimPre (p ++ s) p = s := by
  unfold strTrimPre
  rw [strHasPre_append]
  simp [List.drop_left]

/-- Leading space padding is absorbed by `strTrimLeftSpace`. -/
theorem trimLeftSpace_replicate (a : Nat) (l : GoStr) :
    strTrimLeftSpace (List.replicate a ' ' ++ l) = strTrimLeftSpace l := by
  induction a with
  | zero => rfl
  | succ n ih =>
    rw [List.replicate_succ, List.cons_append]
    simp only [strTrimLeftSpace, List.dropWhile_cons] at ih ⊢
    simp [ih]

/-- `strTrimLeftSpace` leaves a list alone when its head is not a space. -/
theorem trimLeftSpace_cons_nonspace (c : Char) (cs : GoStr) (h : c ≠ ' ') :
    strTrimLeftSpace (c :: cs) = c :: cs := by
  simp [strTrimLeftSpace, List.dropWhile_cons, h]

/-- `strTrimRightSpace` is `strTrimLeftSpace` conjugated by `reverse`. -/
theorem trimRightSpace_eq (s : GoStr) :
    strTrimRightSpace s = (strTrimLeftSpace s.reverse).reverse := rfl

/-- `strTrimRightSpace` strips exactly the trailing space padding when the
payload does not itself end in a space. -/
theorem trimRightSpace_append_replicate (t : GoStr) (b : Nat)
    (h : ∀ c, t.getLast? = some c → c ≠ ' ') :
    strTrimRightSpace (t ++ List.replicate b ' ') = t := by
  rw [trimRightSpace_eq, List.reverse_append, List.reverse_replicate,
    trimLeftSpace_replicate]
  cases ht : t.reverse with
  | nil =>
    have h0 : t = [] := by simpa using congrArg List.reverse ht
    rw [h0]; rfl
  | cons c cs =>
    have hc : t.getLast? = some c := by
      rw [List.getLast?_eq_head?_reverse, ht]; rfl
    rw [trimLeftSpace_cons_nonspace c cs (h c hc), ← ht, List.reverse_reverse]

/-- Trimming spaces off a space-padded payload recovers the payload,
provided the payload neither starts nor ends with a space. -/
theorem trim_pad_round (a b : Nat) (t : GoStr)
    (h1 : ∀ c, t.head? = some c → c ≠ ' ')
    (h2 : ∀ c, t.getLast? = some c → c ≠ ' ') :
    strTrimRightSpace (strTrimLeftSpace
      (List.replicate a ' ' ++ (t ++ List.replicate b ' '))) = t := by
  rw [trimLeftSpace_replicate]
  cases t with
  | nil =>
    rw [List.nil_append]
    have hrep : strTrimLeftSpace (List.replicate b ' ') = strTrimLeftSpace [] := by
      simpa using trimLeftSpace_replicate b []
    rw [hrep]; rfl
  | cons c cs =>
    have hc : c ≠ ' ' := h1 c rfl
    rw [List.cons_append, trimLeftSpace_cons_nonspace c (cs ++ List.replicate b ' ') hc,
      ← List.cons_append]
    exact trimRightSpace_append_replicate (c :: cs) b h2

/-- `GetBearerToken` on a header with the `"Bearer "` scheme tag: the guard
passes and the remainder is space-trimmed. -/
theorem getBearerToken_append (rest : GoStr) :
    GetBearerToken (some ("Bearer ".toList ++ rest))
      = .ok (strTrimRightSpace (strTrimLeftSpace rest)) := by
  have hpre : strHasPre ("Bearer ".toList ++ rest) "Bearer ".toList = true :=
    strHasPre_append "Bearer ".toList rest
  have htrim : strTrimPre ("Bearer ".toList ++ rest) "Bearer ".toList = rest :=
    strTrimPre_append "Bearer ".toList rest
  have hempty : ("Bearer ".toList ++ rest).isEmpty = false := by simp
  simp only [GetBearerToken, headerGet, hempty, hpre, htrim]
  simp

/-- `GetAPIKey` on a header with the `"ApiKey "` scheme tag: the guard
passes and the remainder is space-trimmed. -/
theorem getAPIKey_append (rest : GoStr) :
    GetAPIKey (some ("ApiKey ".toList ++ rest))
      = .ok (strTrimRightSpace (strTrimLeftSpace rest)) := by
  have hpre : strHasPre ("ApiKey ".toList ++ rest) "ApiKey ".toList = true :=
    strHasPre_append "ApiKey ".toList rest
  have htrim : strTrimPre ("ApiKey ".toList ++ rest) "ApiKey ".toList = rest :=
    strTrimPre_append "ApiKey ".toList rest
  have hempty : ("ApiKey ".toList ++ rest).isEmpty = false := by simp
  simp only [GetAPIKey, headerGet, hempty, hpre, htrim]
  simp

/-- C9 counterexample: "whitespace surrounding the token value is trimmed"
fails for non-space whitespace.  The extractors trim only the space
character (the `TrimLeft`/`TrimRight` cutset is `" "`), so a tab between the
scheme tag and the token survives into the returned credential. -/
theorem bearer_tab_not_trimmed :
    GetBearerToken (some ("Bearer \tabc").toList) = .ok ('\t' :: "abc".toList)
    ∧ ('\t' :: "abc".toList) ≠ "abc".toList
    ∧ '\t'.isWhitespace = true :=
  ⟨rfl, by decide, by decide⟩

/-- C9 amended: `"Bearer abc"` yields credential `"abc"` only from the
bearer parser and `"ApiKey k1"` yields `"k1"` only from the API-key parser;
a missing, empty, or wrong-scheme header yields the credential error from
both; and **space characters** (not arbitrary whitespace) surrounding the
token value are trimmed from the returned credential. -/
theorem credential_extraction_amended :
    (GetBearerToken (some "Bearer abc".toList) = .ok "abc".toList
      ∧ GetAPIKey (some "ApiKey k1".toList) = .ok "k1".toList
      ∧ GetBearerToken (some "ApiKey k1".toList) = .error .invalidAuthHeader
      ∧ GetAPIKey (some "Bearer abc".toList) = .error .invalidAuthHeader
      ∧ GetBearerToken none = .error .invalidAuthHeader
      ∧ GetAPIKey none = .error .invalidAuthHeader
      ∧ GetBearerToken (some []) = .error .invalidAuthHeader
      ∧ GetAPIKey (some []) = .error .invalidAuthHeader
      ∧ GetBearerToken (some "Basic xyz".toList) = .error .invalidAuthHeader
      ∧ GetAPIKey (some "Basic xyz".toList) = .error .invalidAuthHeader)
    ∧ (∀ (a b : Nat) (t : GoStr),
        (∀ c, t.head? = some c → c ≠ ' ') →
        (∀ c, t.getLast? = some c → c ≠ ' ') →
        GetBearerToken (some ("Bearer ".toList
            ++ (List.replicate a ' ' ++ (t ++ List.replicate b ' ')))) = .ok t
        ∧ GetAPIKey (some ("ApiKey ".toList
            ++ (List.replicate a ' ' ++ (t ++ List.replicate b ' ')))) = .ok t) := by
  refine ⟨⟨rfl, rfl, rfl, rfl, rfl, rfl, rfl, rfl, rfl, rfl⟩, ?_⟩
  intro a b t h1 h2
  constructor
  · rw [getBearerToken_append, trim_pad_round a b t h1 h2]
  · rw [getAPIKey_append, trim_pad_round a b t h1 h2]

/-- Witness for C9 amended at a concrete input: one leading and two trailing
spaces around the token `"tok"` are trimmed by both extractors. -/
theorem credential_extraction_amended_witness :
    GetBearerToken (some ("Bearer ".toList
        ++ (List.replicate 1 ' ' ++ ("tok".toList ++ List.replicate 2 ' '))))
      = .ok "tok".toList
    ∧ GetAPIKey (some ("ApiKey ".toList
        ++ (List.replicate 1 ' ' ++ ("tok".toList ++ List.replicate 2 ' '))))
      = .ok "tok".toList :=
  credential_extraction_amended.2 1 2 "tok".toList
    (fun c hc => by simp at hc; subst hc; decide)
    (fun c hc => by simp at hc; subst hc; decide)

end Chirpy
